import Mathlib

/-!
Shallow embedding of the RPC marshaling layer of the neovim python client,
as implemented in `src/neovim/api/nvim.py`, together with theorems checking
the natural-language specification against it.

Python values crossing the wire boundary are modelled by the inductive type
`Val`.  A msgpack `ExtType(code, data)` is `Val.ext`; a `Remote` proxy object
(`Buffer`, `Window`, `Tabpage`) is `Val.proxy` carrying its class and its
`code_data` pair.  Python exceptions are modelled by `PyErr`; fallible code
returns `Except PyErr _`.  Outbound traffic (blocking requests and
fire-and-forget notifications sent to the host) is modelled as a list of
`Effect`s returned alongside the result.
-/

/-- The three proxy classes registered by `Nvim.from_session`
(`Buffer`, `Window`, `Tabpage`). -/
inductive PClass where
  | buffer
  | window
  | tabpage
deriving DecidableEq, Repr

/-- Python values as seen by this layer. -/
inductive Val where
  | nil : Val
  | bool (b : Bool) : Val
  | int (n : Int) : Val
  | str (s : String) : Val
  | bytes (bs : List Nat) : Val
  | ext (code : Int) (data : List Nat) : Val
  | proxy (cls : PClass) (code : Int) (data : List Nat) : Val
  | list (xs : List Val) : Val
  | map (kvs : List (Val × Val)) : Val
deriving Repr

/-- Python exceptions relevant to this layer.  All of them model subclasses
of `Exception` (so a bare `except Exception` catches every one of them);
`except IOError` catches exactly `ioError`. -/
inductive PyErr where
  | nvimError (payload : Val)
  | keyError (k : Val)
  | typeError (msg : String)
  | valueError (msg : String)
  | ioError
  | other (msg : String)
deriving Repr

/-- Outbound messages handed to the transport. -/
inductive Effect where
  | notify (name : String) (args : List Val)
  | syncRequest (name : String) (args : List Val)
deriving Repr

mutual

/-- Structural equality on `Val`, mirroring Python `==` on these values
(used for dict key lookup). -/
def Val.beq : Val → Val → Bool
  | .nil, .nil => true
  | .bool a, .bool b => a == b
  | .int a, .int b => a == b
  | .str a, .str b => a == b
  | .bytes a, .bytes b => a == b
  | .ext c1 d1, .ext c2 d2 => c1 == c2 && d1 == d2
  | .proxy p1 c1 d1, .proxy p2 c2 d2 => p1 == p2 && c1 == c2 && d1 == d2
  | .list xs, .list ys => Val.beqList xs ys
  | .map xs, .map ys => Val.beqPairs xs ys
  | _, _ => false

def Val.beqList : List Val → List Val → Bool
  | [], [] => true
  | x :: xs, y :: ys => Val.beq x y && Val.beqList xs ys
  | _, _ => false

def Val.beqPairs : List (Val × Val) → List (Val × Val) → Bool
  | [], [] => true
  | (k1, v1) :: xs, (k2, v2) :: ys =>
      Val.beq k1 k2 && Val.beq v1 v2 && Val.beqPairs xs ys
  | _, _ => false

end

/-- Lookup in an association list by Python equality of the key; models
`d[k]` on a Python dict (the list is kept with later-inserted entries first,
so that first match models dict-literal override semantics). -/
def dictGet {α : Type} (kvs : List (Val × α)) (k : Val) : Option α :=
  (kvs.find? (fun p => Val.beq p.1 k)).map (fun p => p.2)

/-- State of an `Nvim` instance: the fields stored by `Nvim.__init__`
(`src/neovim/api/nvim.py` lines 63-79) that this layer reads.  The
`types` registry is an association list from type-tag value to proxy class;
`decodehook` is `none` when no text-decoding policy is configured.  The
wrapper attributes (`api`, `vars`, `options`, collections, ...) are
out-of-scope collaborators and are not part of the state. -/
structure NvimState where
  channel_id : Val
  metadata : Val
  types : List (Val × PClass)
  decodehook : Option Unit

/-- Modelled from the spec: `DecodeHook.decode_if_bytes` lives outside
`src/`; the spec says a configured text-decoding policy normalizes raw byte
buffers to text, leaving every other value unchanged.  Byte buffers are
decoded to the string of their code points. -/
def decode_if_bytes (v : Val) : Val :=
  match v with
  | .bytes bs => .str (String.mk (bs.map Char.ofNat))
  | v => v

/-- Embedding of `Nvim._from_nvim` (`src/neovim/api/nvim.py` lines 81-87):
an `ExtType` is looked up in `self.types` by its code (a dict index, so a
missing code raises `KeyError`) and turned into a proxy carrying
`(obj.code, obj.data)`; any other value goes through the decode hook when
one is configured, else is returned unchanged. -/
def from_nvim (st : NvimState) (obj : Val) : Except PyErr Val :=
  match obj with
  | .ext code data =>
      match dictGet st.types (.int code) with
      | some cls => .ok (.proxy cls code data)
      | none => .error (.keyError (.int code))
  | v =>
      match st.decodehook with
      | some _ => .ok (decode_if_bytes v)
      | none => .ok v

/-- Embedding of `Nvim._to_nvim` (`src/neovim/api/nvim.py` lines 89-92):
a `Remote` proxy becomes `ExtType(*obj.code_data)`; everything else is
returned unchanged. -/
def to_nvim (obj : Val) : Val :=
  match obj with
  | .proxy _ code data => .ext code data
  | v => v

/-- Modelled from the spec: `Remote.__eq__` lives outside `src/`; the spec
says two proxies are equal iff their (type-tag, payload) pairs are equal,
regardless of object identity or class. -/
def remote_eq (a b : Val) : Bool :=
  match a, b with
  | .proxy _ c1 d1, .proxy _ c2 d2 => c1 == c2 && d1 == d2
  | _, _ => false

/-- A concrete registry and state used by witnesses: type-tag 0 is Buffer,
1 is Window, 2 is Tabpage; no decode hook. -/
def st0 : NvimState :=
  { channel_id := .int 1
  , metadata := .nil
  , types := [(.int 0, .buffer), (.int 1, .window), (.int 2, .tabpage)]
  , decodehook := none }

mutual

/-- Modelled from the spec: the `walk` helper lives outside `src/`; the spec
says the codec is applied recursively over composite values (ordered
sequences, mappings, nested combinations), never only at the top level.
Mappings are walked on both keys and values; every non-composite value is
passed to `f`. -/
def walk (f : Val → Val) : Val → Val
  | .list xs => .list (walkList f xs)
  | .map kvs => .map (walkPairs f kvs)
  | v => f v

def walkList (f : Val → Val) : List Val → List Val
  | [] => []
  | x :: xs => walk f x :: walkList f xs

def walkPairs (f : Val → Val) : List (Val × Val) → List (Val × Val)
  | [] => []
  | (k, v) :: kvs => (walk f k, walk f v) :: walkPairs f kvs

end

mutual

/-- Modelled from the spec: the fallible variant of `walk`, used when the
function applied at the leaves (such as `_from_nvim`) can raise; the first
raised exception propagates out of the whole traversal. -/
def walkE (f : Val → Except PyErr Val) : Val → Except PyErr Val
  | .list xs => do
      let ys ← walkEList f xs
      return .list ys
  | .map kvs => do
      let ys ← walkEPairs f kvs
      return .map ys
  | v => f v

def walkEList (f : Val → Except PyErr Val) : List Val → Except PyErr (List Val)
  | [] => .ok []
  | x :: xs => do
      let y ← walkE f x
      let ys ← walkEList f xs
      return y :: ys

def walkEPairs (f : Val → Except PyErr Val) :
    List (Val × Val) → Except PyErr (List (Val × Val))
  | [] => .ok []
  | (k, v) :: kvs => do
      let k2 ← walkE f k
      let v2 ← walkE f v
      let ys ← walkEPairs f kvs
      return (k2, v2) :: ys

end

/-- Response of the host to one blocking request, as the transport layer
reports it to the session. -/
inductive SessResp where
  | ok (v : Val)
  | err (e : Val)
  | closed
deriving Repr

/-- The external session collaborator, abstracted by how the host answers
each blocking request (by method name and wire-level arguments). -/
structure Session where
  respond : String → List Val → SessResp

/-- Embedding of the error wrapper installed by `Nvim.from_session`
(`src/neovim/api/nvim.py` line 48): `lambda e: NvimError(e[1])` indexes the
host error payload at 1 and wraps that element in `NvimError`. -/
def error_wrapper (e : Val) : PyErr :=
  match e with
  | .list xs =>
      match xs.get? 1 with
      | some m => .nvimError m
      | none => .other "IndexError"
  | _ => .other "TypeError: not indexable"

/-- Modelled from the spec: `Session.request` lives outside `src/`.  Per the
spec, when the asynchronous option is set it sends a fire-and-forget
notification and returns no result (None, never blocking on a response);
otherwise it sends a correlated blocking request and either returns the
host's result, raises `error_wrapper` applied to a host-reported error
payload, or raises `IOError` when the connection closes before a response
arrives. -/
def Session.requestS (s : Session) (name : String) (args : List Val)
    (async : Bool) : List Effect × Except PyErr Val :=
  if async then
    ([.notify name args], .ok .nil)
  else
    match s.respond name args with
    | .ok v => ([.syncRequest name args], .ok v)
    | .err e => ([.syncRequest name args], .error (error_wrapper e))
    | .closed => ([.syncRequest name args], .error .ioError)

/-- Embedding of `Nvim.request` (`src/neovim/api/nvim.py` lines 94-116):
walks `_to_nvim` over the argument tuple, forwards to `session.request`
(with the `async` flag from the keyword arguments), and walks `_from_nvim`
over the result. -/
def request (st : NvimState) (s : Session) (name : String) (args : List Val)
    (async : Bool) : List Effect × Except PyErr Val :=
  let wargs := walkList to_nvim args
  match s.requestS name wargs async with
  | (effs, .ok res) =>
      match walkE (from_nvim st) res with
      | .ok r => (effs, .ok r)
      | .error e => (effs, .error e)
  | (effs, .error e) => (effs, .error e)

/-- A session whose host answers every blocking request with the error
payload `[7, "boom"]`; used by the C3 theorems. -/
def errSession : Session :=
  { respond := fun _ _ => .err (.list [.int 7, .str "boom"]) }

/-- Embedding of `Nvim.err_write` (`src/neovim/api/nvim.py` lines 273-275):
forwards to `request` with the `vim_err_write` method. -/
def err_write (st : NvimState) (s : Session) (msg : Val) (async : Bool) :
    List Effect × Except PyErr Val :=
  request st s "vim_err_write" [msg] async

/-- The fixed text placed before the call point in the message built by the
handler of `Nvim.async_call` (`src/neovim/api/nvim.py` lines 311-313):
the error repr and the formatted traceback are interpolated, and the call
point is appended last. -/
def async_err_prefix (errRepr excText : String) : String :=
  "error caught while executing async callback:\n" ++ errRepr ++ "\n" ++
    excText ++ "\n \nthe call was requested at\n"

/-- The full message built by the handler of `Nvim.async_call`. -/
def async_err_msg (errRepr excText callPoint : String) : String :=
  async_err_prefix errRepr excText ++ callPoint

/-- Embedding of the `handler` closure inside `Nvim.async_call`
(`src/neovim/api/nvim.py` lines 307-315).  The execution of `fn` is
modelled by its outcome `fnResult`; the strings produced by the runtime
introspection helpers `format_exc` and `format_stack` (the latter captured
at scheduling time as `call_point`) are parameters.  On success the handler
returns None; on failure it reports through `err_write` with the async flag
set and re-raises the original exception. -/
def async_call_handler (st : NvimState) (s : Session)
    (fnResult : Except PyErr Val) (errRepr excText callPoint : String) :
    List Effect × Except PyErr Val :=
  match fnResult with
  | .ok _ => ([], .ok .nil)
  | .error e =>
      let msg := async_err_msg errRepr excText callPoint
      ((err_write st s (.str msg) true).1, .error e)

/-- Depth gadget for stating that the codec recurses to arbitrary depth:
`nest n v` wraps `v` inside `n` singleton lists. -/
def nest : Nat → Val → Val
  | 0, v => v
  | n + 1, v => .list [nest n v]

/-- Embedding of `filter_request_cb` inside `Nvim.run_loop`
(`src/neovim/api/nvim.py` lines 134-137): the inbound arguments are walked
through `_from_nvim` first, then the name is decoded, the caller-supplied
handler is invoked, and its return value is walked through `_to_nvim`. -/
def filter_request_cb (st : NvimState)
    (request_cb : Val → Val → Except PyErr Val) (name args : Val) :
    Except PyErr Val := do
  let dargs ← walkE (from_nvim st) args
  let dname ← from_nvim st name
  let result ← request_cb dname dargs
  return walk to_nvim result

/-- Embedding of `filter_notification_cb` inside `Nvim.run_loop`
(`src/neovim/api/nvim.py` lines 139-140): the name is decoded, the inbound
arguments are walked through `_from_nvim`, and the caller-supplied handler
is invoked; its return value is ignored. -/
def filter_notification_cb (st : NvimState)
    (notif_cb : Val → Val → Except PyErr Unit) (name args : Val) :
    Except PyErr Unit := do
  let dname ← from_nvim st name
  let dargs ← walkE (from_nvim st) args
  notif_cb dname dargs

/-- A session whose host answers every blocking request with the fixed
value `v`. -/
def echoSession (v : Val) : Session :=
  { respond := fun _ _ => .ok v }

/-- Dict subscript on a metadata value: `m[k]` with a string key, raising
`KeyError` for a missing key and `TypeError` for a non-dict. -/
def mdGet (m : Val) (k : String) : Except PyErr Val :=
  match m with
  | .map kvs =>
      match dictGet kvs (.str k) with
      | some v => .ok v
      | none => .error (.keyError (.str k))
  | _ => .error (.typeError "not subscriptable")

/-- Embedding of `Nvim.from_session` (`src/neovim/api/nvim.py` lines
40-61): installs the error wrapper, issues the single blocking
`vim_get_api_info` request, unpacks `(channel_id, metadata)`, decodes the
metadata strings (the `IS_PYTHON3` branch, whose `DecodeHook().walk` is
modelled from the spec as walking `decode_if_bytes`), builds the type
registry from the three reported type ids, and returns the ready state.
The registry association list is built with the later dict-literal entries
first, so that `dictGet`'s first match models dict override semantics. -/
def from_session (s : Session) : List Effect × Except PyErr NvimState :=
  match s.requestS "vim_get_api_info" [] false with
  | (effs, .error e) => (effs, .error e)
  | (effs, .ok res) =>
      match res with
      | .list [cid, md] =>
          let metadata := walk decode_if_bytes md
          (effs,
            do
              let tv ← mdGet metadata "types"
              let bv ← mdGet tv "Buffer"
              let bid ← mdGet bv "id"
              let wv ← mdGet tv "Window"
              let wid ← mdGet wv "id"
              let tpv ← mdGet tv "Tabpage"
              let tid ← mdGet tpv "id"
              return { channel_id := cid, metadata := metadata,
                       types := [(tid, .tabpage), (wid, .window),
                                 (bid, .buffer)],
                       decodehook := none })
      | _ => (effs, .error (.valueError "unpack"))

/-- Concrete Buffer type entry used by the C7 witness. -/
def bv0 : Val := .map [(.str "id", .int 0)]

/-- Concrete Window type entry used by the C7 witness. -/
def wv0 : Val := .map [(.str "id", .int 1)]

/-- Concrete Tabpage type entry used by the C7 witness. -/
def tpv0 : Val := .map [(.str "id", .int 2)]

/-- Concrete types dict used by the C7 witness. -/
def tv0 : Val :=
  .map [(.str "Buffer", bv0), (.str "Window", wv0), (.str "Tabpage", tpv0)]

/-- Concrete api-info metadata used by the C7 witness. -/
def md0 : Val := .map [(.str "types", tv0)]

/-- A session answering `vim_get_api_info` with channel id 1 and `md0`. -/
def apiSession : Session :=
  { respond := fun _ _ => .ok (.list [.int 1, md0]) }

/-- A single quote character, used to build Python error message text. -/
def pyQuote : String := String.singleton (Char.ofNat 39)

/-- The `TypeError` message raised by `Nvim.call` for an unexpected keyword
argument named `k`. -/
def call_kwarg_msg (k : String) : String :=
  "call() got an unexpected keyword argument " ++ pyQuote ++ k ++ pyQuote

/-- Modelled from the spec: Python truthiness of a value, as tested by the
`if async:` branch of the session collaborator when the `async` keyword
argument is forwarded. -/
def valTruthy : Val → Bool
  | .nil => false
  | .bool b => b
  | .int n => n != 0
  | .str s => !s.isEmpty
  | .bytes bs => !bs.isEmpty
  | .list xs => !xs.isEmpty
  | .map kvs => !kvs.isEmpty
  | .ext _ _ => true
  | .proxy _ _ _ => true

/-- The effective asynchronous flag carried by a keyword-argument list:
the truthiness of the `async` entry, defaulting to false. -/
def kwargsAsync (kwargs : List (String × Val)) : Bool :=
  match kwargs.lookup "async" with
  | some v => valTruthy v
  | none => false

/-- Embedding of `Nvim.call` (`src/neovim/api/nvim.py` lines 192-198):
every keyword argument is checked against the name `async`; the first other
name raises a `TypeError` before anything is sent; otherwise the call is
forwarded as a `vim_call_function` request with the function name and the
packed positional arguments. -/
def call (st : NvimState) (s : Session) (name : String) (args : List Val)
    (kwargs : List (String × Val)) : List Effect × Except PyErr Val :=
  match kwargs.find? (fun kv => kv.1 != "async") with
  | some kv => ([], .error (.typeError (call_kwarg_msg kv.1)))
  | none =>
      request st s "vim_call_function" [.str name, .list args]
        (kwargsAsync kwargs)

/-- Embedding of the loop body of `Nvim.foreach_rtp`
(`src/neovim/api/nvim.py` lines 219-224): the callback `cb` (modelled by
its outcome on each path) is invoked path by path; the loop breaks at the
first path where `cb` returns a non-None value or raises any exception,
both without propagating anything.  The result records the paths on which
`cb` was invoked and the value the surrounding function body produces
(always None, since the `for` statement is the last statement and both
break paths discard the callback's value and exception). -/
def foreachLoop (cb : Val → Except PyErr Val) :
    List Val → List Val × Val
  | [] => ([], .nil)
  | p :: ps =>
      match cb p with
      | .error _ => ([p], .nil)
      | .ok .nil =>
          let r := foreachLoop cb ps
          (p :: r.1, r.2)
      | .ok _ => ([p], .nil)

/-- Embedding of `Nvim.foreach_rtp` (`src/neovim/api/nvim.py` lines
211-224): fetches the runtime paths through `request` and runs the loop
over the decoded list. -/
def foreach_rtp (st : NvimState) (s : Session) (cb : Val → Except PyErr Val) :
    List Effect × Except PyErr Val :=
  match request st s "vim_list_runtime_paths" [] false with
  | (effs, .ok (.list ps)) => (effs, .ok (foreachLoop cb ps).2)
  | (effs, .ok _) => (effs, .error (.typeError "not iterable"))
  | (effs, .error e) => (effs, .error e)

/-- A session answering the runtime-path enumeration with two paths. -/
def rtpSession : Session :=
  { respond := fun _ _ => .ok (.list [.str "a", .str "b"]) }

/-- Embedding of `Nvim.command` (`src/neovim/api/nvim.py` lines 180-182):
forwards to `request` with the `vim_command` method. -/
def command (st : NvimState) (s : Session) (string : Val) (async : Bool) :
    List Effect × Except PyErr Val :=
  request st s "vim_command" [string] async

/-- Embedding of `Nvim.quit` (`src/neovim/api/nvim.py` lines 277-289):
runs the quit command, swallowing an `IOError` (raised because the
connection closes before a response arrives) and returning None; any other
exception propagates. -/
def quit (st : NvimState) (s : Session) (quit_command : Val) :
    List Effect × Except PyErr Val :=
  match command st s quit_command false with
  | (effs, .error .ioError) => (effs, .ok .nil)
  | (effs, .error e) => (effs, .error e)
  | (effs, .ok _) => (effs, .ok .nil)

/-- A session whose connection is closed: every blocking request fails
with `IOError`. -/
def closedSession : Session :=
  { respond := fun _ _ => .closed }

/-- C1: for a registered type-tag, `_to_nvim` followed by `_from_nvim` is an
identity up to proxy equality: the decode yields a proxy with the same
`(code, data)` pair, equal to the original under `Remote` equality; and any
two decodes of the same wire reference yield proxies equal to each other. -/
theorem roundtrip_identity (st : NvimState) (cls cls' : PClass)
    (code : Int) (data : List Nat)
    (h : dictGet st.types (.int code) = some cls') :
    from_nvim st (to_nvim (.proxy cls code data)) = .ok (.proxy cls' code data) ∧
    remote_eq (.proxy cls' code data) (.proxy cls code data) = true ∧
    (∀ p1 p2 : Val, from_nvim st (.ext code data) = .ok p1 →
      from_nvim st (.ext code data) = .ok p2 → remote_eq p1 p2 = true) := by
  refine ⟨?_, ?_, ?_⟩
  · simp [to_nvim, from_nvim, h]
  · simp [remote_eq]
  · intro p1 p2 h1 h2
    simp [from_nvim, h] at h1 h2
    subst h1; subst h2
    simp [remote_eq]

/-- C1 witness: concrete round trip for tag 0, payload `[1]`. -/
theorem roundtrip_identity_witness :
    dictGet st0.types (.int 0) = some PClass.buffer ∧
    (from_nvim st0 (to_nvim (.proxy .buffer 0 [1])) = .ok (.proxy .buffer 0 [1]) ∧
     remote_eq (.proxy .buffer 0 [1]) (.proxy .buffer 0 [1]) = true ∧
     (∀ p1 p2 : Val, from_nvim st0 (.ext 0 [1]) = .ok p1 →
       from_nvim st0 (.ext 0 [1]) = .ok p2 → remote_eq p1 p2 = true)) :=
  ⟨rfl, roundtrip_identity st0 .buffer .buffer 0 [1] rfl⟩

/-- C2 counterexample: with only tag 0 registered, decoding the wire
reference `ExtType(1, [2])` raises `KeyError` instead of passing the raw
reference through unchanged. -/
theorem unregistered_tag_counterexample :
    from_nvim { channel_id := .int 1, metadata := .nil,
                types := [(.int 0, .buffer)], decodehook := none }
        (.ext 1 [2]) = .error (.keyError (.int 1)) ∧
    (Except.error (PyErr.keyError (.int 1)) : Except PyErr Val) ≠
      .ok (.ext 1 [2]) := by
  exact ⟨rfl, fun h => Except.noConfusion h⟩

/-- C2 amended: decoding an Opaque Reference whose type-tag is not in the
registry raises a `KeyError` naming the tag; it does not pass through. -/
theorem unregistered_tag_raises (st : NvimState) (code : Int) (data : List Nat)
    (h : dictGet st.types (.int code) = none) :
    from_nvim st (.ext code data) = .error (.keyError (.int code)) := by
  simp [from_nvim, h]

/-- C2 amended witness: tag 5 is unregistered in `st0`. -/
theorem unregistered_tag_raises_witness :
    dictGet st0.types (.int 5) = none ∧
    from_nvim st0 (.ext 5 []) = .error (.keyError (.int 5)) :=
  ⟨rfl, unregistered_tag_raises st0 5 [] rfl⟩

/-- C3 counterexample: when the host answers with the error payload
`[7, "boom"]`, the caller of `request` receives `NvimError("boom")` — a
typed error carrying only the second element of the payload, not the
payload verbatim (the error-type code 7 is discarded). -/
theorem host_error_payload_counterexample :
    (request st0 errSession "vim_eval" [.str "x"] false).2 =
      .error (.nvimError (.str "boom")) ∧
    Val.str "boom" ≠ Val.list [.int 7, .str "boom"] :=
  ⟨rfl, fun h => Val.noConfusion h⟩

/-- C3 amended: for every synchronous request the host answers with an
error payload `[c, m]`, the caller of `request` receives the typed error
`NvimError m`: the message element of the payload is carried verbatim,
while the leading error-type element is discarded. -/
theorem host_error_typed (st : NvimState) (s : Session) (name : String)
    (args : List Val) (c m : Val)
    (h : s.respond name (walkList to_nvim args) = .err (.list [c, m])) :
    (request st s name args false).2 = .error (.nvimError m) := by
  simp [request, Session.requestS, h, error_wrapper]

/-- C3 amended witness: the concrete session answering `[7, "boom"]`. -/
theorem host_error_typed_witness :
    errSession.respond "vim_eval" (walkList to_nvim [.str "x"]) =
      .err (.list [.int 7, .str "boom"]) ∧
    (request st0 errSession "vim_eval" [.str "x"] false).2 =
      .error (.nvimError (.str "boom")) :=
  ⟨rfl, host_error_typed st0 errSession "vim_eval" [.str "x"]
    (.int 7) (.str "boom") rfl⟩

/-- C6: with the asynchronous option set, `request` emits exactly one
fire-and-forget notification, returns None to the caller, and its entire
behavior is independent of how (or whether) the host would respond. -/
theorem async_request_fire_and_forget (st : NvimState) (name : String)
    (args : List Val) :
    (∀ s : Session, request st s name args true =
      ([.notify name (walkList to_nvim args)], .ok .nil)) ∧
    (∀ s1 s2 : Session,
      request st s1 name args true = request st s2 name args true) := by
  constructor
  · intro s
    cases hd : st.decodehook with
    | none => simp [request, Session.requestS, walkE, from_nvim, hd]
    | some u => simp [request, Session.requestS, walkE, from_nvim, hd,
        decode_if_bytes]
  · intro s1 s2
    cases hd : st.decodehook with
    | none => simp [request, Session.requestS, walkE, from_nvim, hd]
    | some u => simp [request, Session.requestS, walkE, from_nvim, hd]

/-- An asynchronous `request` always emits exactly the one notification
carrying the encoded arguments, whatever the decode hook does to `None`. -/
theorem request_async_effects (st : NvimState) (s : Session) (name : String)
    (args : List Val) :
    (request st s name args true).1 = [.notify name (walkList to_nvim args)] := by
  cases h : walkE (from_nvim st) Val.nil <;>
    simp [request, Session.requestS, h]

/-- C4: when the scheduled function fails with any exception `e`, the
handler reports the failure as exactly one fire-and-forget `vim_err_write`
notification whose message ends with the original scheduling call site,
and then re-raises `e` rather than swallowing it. -/
theorem async_call_error_reported (st : NvimState) (s : Session) (e : PyErr)
    (errRepr excText callPoint : String) :
    async_call_handler st s (.error e) errRepr excText callPoint =
      ([.notify "vim_err_write"
          [.str (async_err_msg errRepr excText callPoint)]], .error e) ∧
    async_err_msg errRepr excText callPoint =
      async_err_prefix errRepr excText ++ callPoint := by
  constructor
  · have h1 : (err_write st s (.str (async_err_msg errRepr excText callPoint))
        true).1 =
        [.notify "vim_err_write"
          [.str (async_err_msg errRepr excText callPoint)]] := by
      have h2 := request_async_effects st s "vim_err_write"
        [.str (async_err_msg errRepr excText callPoint)]
      simpa [err_write, walkList, walk, to_nvim] using h2
    simp [async_call_handler, h1]
  · rfl

/-- Walking a total function commutes with nesting. -/
theorem walk_nest (f : Val → Val) (n : Nat) (v : Val) :
    walk f (nest n v) = nest n (walk f v) := by
  induction n with
  | zero => rfl
  | succ n ih => simp [nest, walk, walkList, ih]

/-- Walking a fallible function commutes with nesting on success. -/
theorem walkE_nest (f : Val → Except PyErr Val) (n : Nat) (v y : Val)
    (h : walkE f v = .ok y) :
    walkE f (nest n v) = .ok (nest n y) := by
  induction n with
  | zero => simpa using h
  | succ n ih => simp [nest, walkE, walkEList, ih, bind, Except.bind,
      pure, Except.pure]

/-- Decoding leaves a string unchanged whether or not a decode hook is
configured. -/
theorem from_nvim_str (st : NvimState) (s : String) :
    from_nvim st (.str s) = .ok (.str s) := by
  cases hd : st.decodehook with
  | none => simp [from_nvim, hd]
  | some u => simp [from_nvim, hd, decode_if_bytes]

/-- C5: the codec is applied recursively at every nesting depth `n`, not
only at the top level: a proxy buried under `n` list layers is encoded in
place by `walk _to_nvim`; a wire reference buried under `n` layers is
decoded in place by `walk _from_nvim`; `request` sends the deeply encoded
arguments and returns the deeply decoded result; and the `run_loop` handler
wrappers hand the handler deeply decoded arguments and deeply encode a
request handler's return value. -/
theorem codec_applied_recursively (st : NvimState) (name : String)
    (cls cls' : PClass) (code : Int) (data : List Nat)
    (h : dictGet st.types (.int code) = some cls') :
    (∀ n, walk to_nvim (nest n (.proxy cls code data)) =
      nest n (.ext code data)) ∧
    (∀ n, walkE (from_nvim st) (nest n (.ext code data)) =
      .ok (nest n (.proxy cls' code data))) ∧
    (∀ n, request st (echoSession (nest n (.ext code data))) name
        [nest n (.proxy cls code data)] false =
      ([.syncRequest name [nest n (.ext code data)]],
        .ok (nest n (.proxy cls' code data)))) ∧
    (∀ (cb : Val → Val → Except PyErr Val) (n : Nat),
      filter_request_cb st cb (.str name) (nest n (.ext code data)) =
        (cb (.str name) (nest n (.proxy cls' code data))).bind
          (fun r => .ok (walk to_nvim r))) ∧
    (∀ (cb : Val → Val → Except PyErr Unit) (n : Nat),
      filter_notification_cb st cb (.str name) (nest n (.ext code data)) =
        cb (.str name) (nest n (.proxy cls' code data))) := by
  have henc : ∀ n, walk to_nvim (nest n (.proxy cls code data)) =
      nest n (.ext code data) := by
    intro n
    rw [walk_nest]
    rfl
  have hdec : ∀ n, walkE (from_nvim st) (nest n (.ext code data)) =
      .ok (nest n (.proxy cls' code data)) := by
    intro n
    apply walkE_nest
    simp [walkE, from_nvim, h]
  refine ⟨henc, hdec, ?_, ?_, ?_⟩
  · intro n
    simp [request, Session.requestS, echoSession, walkList, henc n, hdec n]
  · intro cb n
    simp [filter_request_cb, hdec n, from_nvim_str, bind, Except.bind,
      pure, Except.pure, Except.bind]
  · intro cb n
    simp [filter_notification_cb, hdec n, from_nvim_str, bind, Except.bind,
      pure, Except.pure]

/-- C5 witness: depth-2 nesting round trip through `request` and the
`run_loop` request wrapper, in the concrete state `st0`. -/
theorem codec_applied_recursively_witness :
    dictGet st0.types (.int 0) = some PClass.buffer ∧
    walk to_nvim (nest 2 (.proxy .buffer 0 [1])) = nest 2 (.ext 0 [1]) ∧
    walkE (from_nvim st0) (nest 2 (.ext 0 [1])) =
      .ok (nest 2 (.proxy .buffer 0 [1])) ∧
    request st0 (echoSession (nest 2 (.ext 0 [1]))) "buffer_get_mark"
        [nest 2 (.proxy .buffer 0 [1])] false =
      ([.syncRequest "buffer_get_mark" [nest 2 (.ext 0 [1])]],
        .ok (nest 2 (.proxy .buffer 0 [1]))) ∧
    filter_request_cb st0 (fun nm a => .ok (.list [nm, a]))
        (.str "buffer_get_mark") (nest 2 (.ext 0 [1])) =
      .ok (.list [.str "buffer_get_mark", nest 2 (.ext 0 [1])]) := by
  refine ⟨rfl, ?_, ?_, ?_, ?_⟩
  · exact (codec_applied_recursively st0 "buffer_get_mark" .buffer .buffer
      0 [1] rfl).1 2
  · exact (codec_applied_recursively st0 "buffer_get_mark" .buffer .buffer
      0 [1] rfl).2.1 2
  · exact (codec_applied_recursively st0 "buffer_get_mark" .buffer .buffer
      0 [1] rfl).2.2.1 2
  · have := (codec_applied_recursively st0 "buffer_get_mark" .buffer .buffer
      0 [1] rfl).2.2.2.1 (fun nm a => .ok (.list [nm, a])) 2
    simpa [walk, walkList, walkPairs, to_nvim, nest, bind, Except.bind]
      using this

mutual

/-- Reflexivity of Python structural equality on `Val`. -/
theorem Val.beq_refl : (v : Val) → Val.beq v v = true
  | .nil => rfl
  | .bool b => by simp [Val.beq]
  | .int n => by simp [Val.beq]
  | .str s => by simp [Val.beq]
  | .bytes bs => by simp [Val.beq]
  | .ext c d => by simp [Val.beq]
  | .proxy p c d => by simp [Val.beq]
  | .list xs => by simp [Val.beq, Val.beqList_refl xs]
  | .map kvs => by simp [Val.beq, Val.beqPairs_refl kvs]

theorem Val.beqList_refl : (xs : List Val) → Val.beqList xs xs = true
  | [] => rfl
  | x :: xs => by simp [Val.beqList, Val.beq_refl x, Val.beqList_refl xs]

theorem Val.beqPairs_refl : (kvs : List (Val × Val)) → Val.beqPairs kvs kvs = true
  | [] => rfl
  | (k, v) :: kvs => by
      simp [Val.beqPairs, Val.beq_refl k, Val.beq_refl v,
        Val.beqPairs_refl kvs]

end

/-- C7: establishing a session issues exactly one blocking
`vim_get_api_info` request, and when the host reports a channel id and
metadata carrying ids for the Buffer, Window and Tabpage types, the
returned instance stores that channel id, the decoded metadata, and a
registry mapping each reported type id to its proxy class. -/
theorem from_session_establishes (s : Session) (cid md tv bv wv tpv : Val)
    (bid wid tid : Val)
    (h : s.respond "vim_get_api_info" [] = .ok (.list [cid, md]))
    (h1 : mdGet (walk decode_if_bytes md) "types" = .ok tv)
    (h2 : mdGet tv "Buffer" = .ok bv) (h3 : mdGet bv "id" = .ok bid)
    (h4 : mdGet tv "Window" = .ok wv) (h5 : mdGet wv "id" = .ok wid)
    (h6 : mdGet tv "Tabpage" = .ok tpv) (h7 : mdGet tpv "id" = .ok tid) :
    from_session s =
      ([.syncRequest "vim_get_api_info" []],
        .ok { channel_id := cid, metadata := walk decode_if_bytes md,
              types := [(tid, .tabpage), (wid, .window), (bid, .buffer)],
              decodehook := none }) ∧
    (dictGet [(tid, PClass.tabpage), (wid, PClass.window),
        (bid, PClass.buffer)] tid = some .tabpage ∧
      (Val.beq tid wid = false →
        dictGet [(tid, PClass.tabpage), (wid, PClass.window),
          (bid, PClass.buffer)] wid = some .window) ∧
      (Val.beq tid bid = false → Val.beq wid bid = false →
        dictGet [(tid, PClass.tabpage), (wid, PClass.window),
          (bid, PClass.buffer)] bid = some .buffer)) := by
  refine ⟨?_, ?_, ?_, ?_⟩
  · simp [from_session, Session.requestS, h, h1, h2, h3, h4, h5, h6, h7,
      bind, Except.bind, pure, Except.pure]
  · simp [dictGet, List.find?, Val.beq_refl]
  · intro hne
    simp [dictGet, List.find?, hne, Val.beq_refl]
  · intro hne1 hne2
    simp [dictGet, List.find?, hne1, hne2, Val.beq_refl]

/-- C7 witness: establishing against the concrete metadata `md0` issues one
request and registers ids 0, 1, 2 for Buffer, Window, Tabpage. -/
theorem from_session_establishes_witness :
    apiSession.respond "vim_get_api_info" [] = .ok (.list [.int 1, md0]) ∧
    from_session apiSession =
      ([.syncRequest "vim_get_api_info" []],
        .ok { channel_id := .int 1, metadata := walk decode_if_bytes md0,
              types := [(.int 2, .tabpage), (.int 1, .window),
                        (.int 0, .buffer)],
              decodehook := none }) :=
  ⟨rfl, (from_session_establishes apiSession (.int 1) md0 tv0 bv0 wv0 tpv0
      (.int 0) (.int 1) (.int 2)
      rfl rfl rfl rfl rfl rfl rfl rfl).1⟩

/-- A keyword-argument list containing a key other than `async` makes
`find?` report an offender. -/
theorem find_offender (kwargs : List (String × Val)) (k : String) (v : Val)
    (hm : (k, v) ∈ kwargs) (hk : k ≠ "async") :
    ∃ kv0, kwargs.find? (fun kv => kv.1 != "async") = some kv0 ∧
      kv0.1 ≠ "async" := by
  induction kwargs with
  | nil => cases hm
  | cons a l ih =>
      by_cases ha : a.1 = "async"
      · have hpa : (a.1 != "async") = false := by simp [ha]
        rcases List.mem_cons.mp hm with heq | hmem
        · exact absurd (by rw [← heq] at ha; exact ha) hk
        · rcases ih hmem with ⟨kv0, hf, hk0⟩
          exact ⟨kv0, by simp [List.find?, hpa, hf], hk0⟩
      · have hpa : (a.1 != "async") = true := by simp [ha]
        exact ⟨a, by simp [List.find?, hpa], ha⟩

/-- C8: any keyword argument to `call` named anything but `async` raises a
`TypeError` naming the offender, with no request issued (no effects);
with no keyword arguments, or only `async`, the call is forwarded as a
`vim_call_function` request. -/
theorem call_kwargs_check (st : NvimState) (s : Session) (name : String)
    (args : List Val) :
    (∀ (kwargs : List (String × Val)) (k : String) (v : Val),
      (k, v) ∈ kwargs → k ≠ "async" →
      (call st s name args kwargs).1 = [] ∧
      ∃ k2, k2 ≠ "async" ∧
        (call st s name args kwargs).2 =
          .error (.typeError (call_kwarg_msg k2))) ∧
    call st s name args [] =
      request st s "vim_call_function" [.str name, .list args] false ∧
    (∀ v : Val, call st s name args [("async", v)] =
      request st s "vim_call_function" [.str name, .list args]
        (valTruthy v)) := by
  refine ⟨?_, ?_, ?_⟩
  · intro kwargs k v hm hk
    rcases find_offender kwargs k v hm hk with ⟨kv0, hf, hk0⟩
    exact ⟨by simp [call, hf], kv0.1, hk0, by simp [call, hf]⟩
  · rfl
  · intro v
    simp [call, List.find?, kwargsAsync, List.lookup]

/-- C8 witness: the keyword `foo` is rejected with no request issued, and
an `async`-only call is forwarded. -/
theorem call_kwargs_check_witness :
    (("foo", Val.nil) ∈ [("foo", Val.nil)] ∧ "foo" ≠ "async") ∧
    ((call st0 errSession "f" [] [("foo", .nil)]).1 = [] ∧
      ∃ k2, k2 ≠ "async" ∧
        (call st0 errSession "f" [] [("foo", .nil)]).2 =
          .error (.typeError (call_kwarg_msg k2))) ∧
    call st0 errSession "f" [] [] =
      request st0 errSession "vim_call_function" [.str "f", .list []] false :=
  ⟨⟨by simp, by decide⟩,
    (call_kwargs_check st0 errSession "f" []).1 [("foo", .nil)] "foo" .nil
      (by simp) (by decide),
    (call_kwargs_check st0 errSession "f" []).2.1⟩

/-- The loop body of `foreach_rtp` evaluates to None for every callback
and every path list. -/
theorem foreachLoop_nil (cb : Val → Except PyErr Val) (ps : List Val) :
    (foreachLoop cb ps).2 = .nil := by
  induction ps with
  | nil => rfl
  | cons p ps ih =>
      cases hc : cb p with
      | error e => simp [foreachLoop, hc]
      | ok v =>
          cases v <;> simp [foreachLoop, hc, ih]

/-- C9: `foreach_rtp` always returns None, whatever the callback does:
when the host supplies a decodable path list, the call completes normally
with None; the callback is invoked on paths one by one, stopping at the
first non-None return or at the first raised exception (which is swallowed,
not propagated); the value the callback returned is never returned to the
caller. -/
theorem foreach_rtp_returns_none (st : NvimState) (s : Session)
    (cb : Val → Except PyErr Val) (ps qs : List Val)
    (h : s.respond "vim_list_runtime_paths" [] = .ok (.list ps))
    (h2 : walkEList (from_nvim st) ps = .ok qs) :
    (foreach_rtp st s cb).2 = .ok .nil ∧
    (∀ (cb2 : Val → Except PyErr Val) (ps2 : List Val),
      (foreachLoop cb2 ps2).2 = .nil) ∧
    (∀ (cb2 : Val → Except PyErr Val) (p : Val) (ps2 : List Val) (e : PyErr),
      cb2 p = .error e → (foreachLoop cb2 (p :: ps2)).1 = [p]) ∧
    (∀ (cb2 : Val → Except PyErr Val) (p : Val) (ps2 : List Val) (v : Val),
      cb2 p = .ok v → v ≠ .nil → (foreachLoop cb2 (p :: ps2)).1 = [p]) ∧
    (∀ (cb2 : Val → Except PyErr Val) (p : Val) (ps2 : List Val),
      cb2 p = .ok .nil →
      (foreachLoop cb2 (p :: ps2)).1 = p :: (foreachLoop cb2 ps2).1) := by
  refine ⟨?_, fun cb2 ps2 => foreachLoop_nil cb2 ps2, ?_, ?_, ?_⟩
  · simp [foreach_rtp, request, Session.requestS, h, walkE, h2,
      bind, Except.bind, pure, Except.pure, walkList, foreachLoop_nil]
  · intro cb2 p ps2 e hc
    simp [foreachLoop, hc]
  · intro cb2 p ps2 v hc hv
    cases v <;> simp_all [foreachLoop, hc]
  · intro cb2 p ps2 hc
    simp [foreachLoop, hc]

/-- C9 witness: with the concrete two-path session, a callback returning
the non-None value 5 on every path: the call returns None and the callback
ran on the first path only. -/
theorem foreach_rtp_returns_none_witness :
    rtpSession.respond "vim_list_runtime_paths" [] =
      .ok (.list [.str "a", .str "b"]) ∧
    walkEList (from_nvim st0) [.str "a", .str "b"] =
      .ok [.str "a", .str "b"] ∧
    (foreach_rtp st0 rtpSession (fun _ => .ok (.int 5))).2 = .ok .nil ∧
    (foreachLoop (fun _ => .ok (.int 5)) [.str "a", .str "b"]).1 =
      [.str "a"] :=
  ⟨rfl, rfl,
    (foreach_rtp_returns_none st0 rtpSession (fun _ => .ok (.int 5))
      [.str "a", .str "b"] [.str "a", .str "b"] rfl rfl).1,
    (foreach_rtp_returns_none st0 rtpSession (fun _ => .ok (.int 5))
      [.str "a", .str "b"] [.str "a", .str "b"] rfl rfl).2.2.2.1
      (fun _ => .ok (.int 5)) (.str "a") [.str "b"] (.int 5) rfl
      (fun hx => Val.noConfusion hx)⟩

/-- C10: when the connection closes before the quit command's response
arrives (so the underlying `command` call raises `IOError`), `quit`
swallows the error and returns None to the caller. -/
theorem quit_swallows_ioerror (st : NvimState) (s : Session)
    (quit_command : Val)
    (h : s.respond "vim_command" (walkList to_nvim [quit_command]) =
      .closed) :
    (command st s quit_command false).2 = .error .ioError ∧
    (quit st s quit_command).2 = .ok .nil := by
  constructor
  · simp [command, request, Session.requestS, h]
  · simp [quit, command, request, Session.requestS, h]

/-- C10 witness: quitting with the default command against the closed
session returns None. -/
theorem quit_swallows_ioerror_witness :
    closedSession.respond "vim_command"
      (walkList to_nvim [.str "qa!"]) = .closed ∧
    (command st0 closedSession (.str "qa!") false).2 = .error .ioError ∧
    (quit st0 closedSession (.str "qa!")).2 = .ok .nil :=
  ⟨rfl,
    (quit_swallows_ioerror st0 closedSession (.str "qa!") rfl).1,
    (quit_swallows_ioerror st0 closedSession (.str "qa!") rfl).2⟩
